import Mathlib

/-!
Shallow embedding of the tacit-gameover falling-block engine core:
`src/models/board.rs`, `src/views/piece_instance.rs`,
`src/views/board_instance.rs`.

Modelling conventions:
* Rust `isize` coordinates and scores become `Int`; `usize` indices become
  `Nat` (`Int.toNat` at the `as usize` casts, which in the source only
  happen after a bounds check has established non-negativity).
* Rust `Vec<T>` becomes `List T`; reads use `List.getD` and writes use
  `List.set` (in the source every write happens at an index already proved
  in bounds, so the `getD` default / out-of-range `set` no-op is never hit
  on the executed paths).
* The `f32` timers (`dt`, `gravity_timer`, `lock_timer`, `gravity_interval`,
  `lock_delay`) become `Rat`: the claims under study are about control flow
  guarded by order comparisons and exact restores, not float rounding.
* The geometry catalog (`PieceType` in `src/models`, not part of the core
  sources) is kept abstract as a record of the lookup functions the core
  consumes, exactly the contract in spec section 6.
* `nannou::rand::ThreadRng` is modelled by passing the piece type the rng
  would select directly into `update`.
-/

namespace TacitGameover

/-- Mirrors `PlaceResult` from `src/models/board.rs`. -/
inductive PlaceResult where
  | PlaceOk
  | RowFilled
  | OutOfBounds
  | PlaceBad
deriving DecidableEq, Repr

/-- Mirrors `BoardPosition` from `src/views/piece_instance.rs`. -/
structure BoardPosition where
  x : Int
  y : Int
deriving DecidableEq, Repr

/-- Display color tag (nannou `Rgba`); no gameplay effect. -/
structure Rgba where
  r : Rat
  g : Rat
  b : Rat
  a : Rat
deriving DecidableEq, Repr

/-- Mirrors `RotationDirection` from `src/views/piece_instance.rs`. -/
inductive RotationDirection where
  | Cw
  | Ccw
deriving DecidableEq, Repr

/-- The geometry catalog contract (spec section 6): `PieceType` lives outside
the core sources, so it is modelled abstractly as the lookup functions the
core calls: `get_rotation`, `rotation_count`, `skirt`, `minmax_x`, `max_x`,
`max_y`. -/
structure PieceType where
  rotation_count : Nat
  get_rotation : Nat → List (Int × Int)
  skirt : Nat → Nat → Int
  minmax_x : Nat → Int × Int
  max_x : Nat → Int
  max_y : Nat → Int

/-- Mirrors `PieceInstance` from `src/views/piece_instance.rs`. -/
structure PieceInstance where
  typ : PieceType
  color : Rgba
  rot_idx : Nat
  position : BoardPosition

/-- Mirrors `PieceInstance::cells`. -/
def PieceInstance.cells (p : PieceInstance) : List (Int × Int) :=
  p.typ.get_rotation p.rot_idx

/-- Mirrors `PieceInstance::rotate` (the rotation-index mutation; the Rust
method also returns the new cells, which callers recover via `cells`). -/
def PieceInstance.rotate (p : PieceInstance) (direction : RotationDirection) :
    PieceInstance :=
  let count := p.typ.rotation_count
  let inx := match direction with
    | RotationDirection.Cw => (p.rot_idx + 1) % count
    | RotationDirection.Ccw => (p.rot_idx + count - 1) % count
  { p with rot_idx := inx }

/-- Mirrors `Board` from `src/models/board.rs`, with the private `BoardState`
fields (`grid`, `row_score`, `col_score`) inlined. -/
structure Board where
  width : Int
  height : Int
  grid : List Bool
  row_score : List Int
  col_score : List Int
deriving DecidableEq, Repr

/-- Mirrors `Board::new` (with `BoardState::new`). -/
def Board.new (width height : Nat) : Board :=
  { width := width
    height := height
    grid := List.replicate (width * height) false
    row_score := List.replicate height 0
    col_score := List.replicate width 0 }

/-- Mirrors `Board::idx`: row-major 2D-to-1D indexing, bounds checked first. -/
def Board.idx (b : Board) (x y : Int) : Option Nat :=
  if x < 0 ∨ y < 0 ∨ x ≥ b.width ∨ y ≥ b.height then none
  else some (y * b.width + x).toNat

/-- Mirrors `Board::is_cell_filled`. -/
def Board.is_cell_filled (b : Board) (pos : BoardPosition) : Bool :=
  match b.idx pos.x pos.y with
  | some i => b.grid.getD i false
  | none => false

/-- Loop body of `Board::try_place`: the source iterates over the piece's
relative cells, returning at the first out-of-bounds or occupied cell. -/
def Board.try_place_cells (b : Board) (board_pos : BoardPosition) :
    List (Int × Int) → PlaceResult
  | [] => PlaceResult.PlaceOk
  | (dx, dy) :: rest =>
    let cell_pos : BoardPosition := ⟨board_pos.x + dx, board_pos.y + dy⟩
    if (b.idx cell_pos.x cell_pos.y).isNone then PlaceResult.OutOfBounds
    else if b.is_cell_filled cell_pos then PlaceResult.PlaceBad
    else b.try_place_cells board_pos rest

/-- Mirrors `Board::try_place`. -/
def Board.try_place (b : Board) (piece : PieceInstance)
    (board_pos : BoardPosition) : PlaceResult :=
  b.try_place_cells board_pos piece.cells

/-- Mirrors `BoardState::update_row_score`: increments the row count and
returns the new value. -/
def Board.update_row_score (b : Board) (pos : BoardPosition) : Board × Int :=
  let score := b.row_score.getD pos.y.toNat 0 + 1
  ({ b with row_score := b.row_score.set pos.y.toNat score }, score)

/-- Mirrors `BoardState::update_col_score`. -/
def Board.update_col_score (b : Board) (pos : BoardPosition) : Board :=
  if pos.y ≥ b.col_score.getD pos.x.toNat 0 then
    { b with col_score := b.col_score.set pos.x.toNat (pos.y + 1) }
  else b

/-- Mirrors `Board::fill_cell`. -/
def Board.fill_cell (b : Board) (pos : BoardPosition) : Board × PlaceResult :=
  match b.idx pos.x pos.y with
  | none => (b, PlaceResult.OutOfBounds)
  | some i =>
    let b1 := { b with grid := b.grid.set i true }
    let b2 := b1.update_col_score pos
    let r := b2.update_row_score pos
    (r.1, if r.2 = b.width then PlaceResult.RowFilled else PlaceResult.PlaceOk)

/-- Loop body of `Board::commit_piece`: the `filter_map` over the piece's
cells, each call to `fill_cell` mutating the board in sequence, collecting
the y of every cell whose fill reports `RowFilled`. -/
def Board.commit_cells (b : Board) (pos : BoardPosition) :
    List (Int × Int) → Board × List Int
  | [] => (b, [])
  | (dx, dy) :: rest =>
    let cell_pos : BoardPosition := ⟨pos.x + dx, pos.y + dy⟩
    let f := b.fill_cell cell_pos
    let r := f.1.commit_cells pos rest
    (r.1, if f.2 = PlaceResult.RowFilled then cell_pos.y :: r.2 else r.2)

/-- Mirrors `Board::commit_piece`: commits at the piece's stored position and
returns `some` of the filled-row list when non-empty, `none` otherwise. -/
def Board.commit_piece (b : Board) (piece : PieceInstance) :
    Board × Option (List Int) :=
  let r := b.commit_cells piece.position piece.cells
  (r.1, if r.2.isEmpty then none else some r.2)

/-- Mirrors the reader `Board::row_score` (named apart from the state field). -/
def Board.row_score_get (b : Board) (row : Int) : Option Int :=
  if row ≥ b.height ∨ row < 0 then none
  else some (b.row_score.getD row.toNat 0)

/-- Mirrors the reader `Board::col_score` (named apart from the state field). -/
def Board.col_score_get (b : Board) (col : Int) : Option Int :=
  if col ≥ b.width ∨ col < 0 then none
  else some (b.col_score.getD col.toNat 0)

/-- Mirrors `Board::mid_x`; Rust `isize` division truncates toward zero. -/
def Board.mid_x (b : Board) : Int :=
  b.width.tdiv 2

/-- Loop body of `Board::get_drop_location`: fold over the column offsets
`0 ..= max_dx - min_dx`, keeping the largest required y (starting at 0). -/
def Board.drop_fold (b : Board) (piece : PieceInstance) (min_dx : Int)
    (acc : Int) (x_offset : Nat) : Int :=
  let board_x := piece.position.x + min_dx + (x_offset : Int)
  if board_x < 0 ∨ board_x ≥ b.width then acc
  else
    let skirt_val := piece.typ.skirt piece.rot_idx x_offset
    let col_score := (b.col_score_get board_x).getD 0
    let required_y :=
      if col_score = 0 then 0 - skirt_val else col_score + 1 - skirt_val
    if required_y > acc then required_y else acc

/-- Mirrors `Board::get_drop_location`. -/
def Board.get_drop_location (b : Board) (piece : PieceInstance) :
    BoardPosition :=
  let mm := piece.typ.minmax_x piece.rot_idx
  let offsets := List.range (mm.2 - mm.1 + 1).toNat
  let max_required_y := offsets.foldl (b.drop_fold piece mm.1) 0
  { x := piece.position.x, y := max 0 max_required_y }

/-- Mirrors `GameState` from `src/views/board_instance.rs`. -/
inductive GameState where
  | Ready
  | Falling
  | Locking
  | GameOver
  | Paused
deriving DecidableEq, Repr

/-- Mirrors `PlayerInput` from `src/views/board_instance.rs`. -/
inductive PlayerInput where
  | L
  | R
  | HardDrop
  | Rotate
  | Pause
deriving DecidableEq, Repr

/-- Mirrors `PauseState` from `src/views/board_instance.rs`. -/
structure PauseState where
  gravity_timer : Rat
  lock_timer : Rat
deriving DecidableEq, Repr

/-- Mirrors `BoardInstance` from `src/views/board_instance.rs`. The
rendering-only fields `id`, `location` and `cell_size` are dropped; `color`
is kept because `spawn_new_piece` reads it through `get_piece_color`. -/
structure BoardInstance where
  board : Board
  color : Rgba
  game_state : GameState
  prev_game_state : Option GameState
  pause_state : Option PauseState
  active_piece : Option PieceInstance
  gravity_interval : Rat
  gravity_timer : Rat
  lock_delay : Rat
  lock_timer : Rat

/-- Mirrors `BoardInstance::new`. -/
def BoardInstance.new (width height : Nat) (color : Rgba)
    (gravity_interval lock_delay : Rat) : BoardInstance :=
  { board := Board.new width height
    color := color
    game_state := GameState.Ready
    prev_game_state := none
    pause_state := none
    active_piece := none
    gravity_interval := gravity_interval
    gravity_timer := 0
    lock_delay := lock_delay
    lock_timer := 0 }

/-- Mirrors the `matches!(.., PlaceOk | RowFilled)` tests in
`spawn_new_piece`, `apply_gravity` and `move_active_piece`. -/
def PlaceResult.is_placeable : PlaceResult → Bool
  | PlaceResult.PlaceOk => true
  | PlaceResult.RowFilled => true
  | _ => false

/-- Mirrors `BoardInstance::spawn_new_piece`; the piece type the hidden rng
would select is passed in explicitly (`piece_typ`). Returns the updated
instance and the Rust method's `bool`. -/
def BoardInstance.spawn_new_piece (s : BoardInstance) (piece_typ : PieceType) :
    BoardInstance × Bool :=
  let spawn_pos : BoardPosition :=
    { x := s.board.mid_x - (piece_typ.max_x 0).tdiv 2
      y := s.board.height - piece_typ.max_y 0 - 1 }
  let new_piece : PieceInstance :=
    { typ := piece_typ, color := s.color, rot_idx := 0, position := spawn_pos }
  let can_place := (s.board.try_place new_piece spawn_pos).is_placeable
  if can_place then ({ s with active_piece := some new_piece }, true)
  else (s, false)

/-- Mirrors `BoardInstance::commit_piece`: `active_piece.take()` always
removes the piece; the board commit runs only when a piece was present. -/
def BoardInstance.commit_piece (s : BoardInstance) :
    BoardInstance × Option (List Int) :=
  match s.active_piece with
  | none => ({ s with active_piece := none }, none)
  | some piece =>
    let r := s.board.commit_piece piece
    ({ s with board := r.1, active_piece := none }, r.2)

/-- Mirrors `BoardInstance::clear_lines`: the source only prints the row
indices and performs no state change (spec section 9 records this stub). -/
def BoardInstance.clear_lines (s : BoardInstance) (_rows : List Int) :
    BoardInstance :=
  s

/-- Mirrors `BoardInstance::apply_gravity`. -/
def BoardInstance.apply_gravity (s : BoardInstance) : BoardInstance × Bool :=
  match s.active_piece with
  | none => (s, false)
  | some piece =>
    let next_pos : BoardPosition :=
      { x := piece.position.x, y := piece.position.y - 1 }
    let can_place := (s.board.try_place piece next_pos).is_placeable
    if can_place then
      ({ s with active_piece := some { piece with position := next_pos } },
        true)
    else (s, false)

/-- Mirrors `BoardInstance::move_active_piece`. -/
def BoardInstance.move_active_piece (s : BoardInstance)
    (new_pos : BoardPosition) : BoardInstance × Bool :=
  match s.active_piece with
  | none => (s, false)
  | some piece =>
    let can_place := (s.board.try_place piece new_pos).is_placeable
    if can_place then
      ({ s with active_piece := some { piece with position := new_pos } },
        true)
    else (s, false)

/-- Mirrors `BoardInstance::hard_drop`. -/
def BoardInstance.hard_drop (s : BoardInstance) : BoardInstance :=
  match s.active_piece with
  | none => s
  | some piece =>
    let drop_pos := s.board.get_drop_location piece
    let m := s.move_active_piece drop_pos
    if m.2 then { m.1 with game_state := GameState.Locking } else m.1

/-- Mirrors `BoardInstance::rotate_active_piece` (clockwise only, revert on
failure). -/
def BoardInstance.rotate_active_piece (s : BoardInstance) : BoardInstance :=
  match s.active_piece with
  | none => s
  | some piece =>
    let rotated := piece.rotate RotationDirection.Cw
    if s.board.try_place rotated rotated.position = PlaceResult.PlaceOk then
      { s with active_piece := some rotated }
    else
      { s with active_piece := some { rotated with rot_idx := piece.rot_idx } }

/-- Mirrors `BoardInstance::handle_pause`; in the source both
`prev_game_state.take()` and `pause_state.take()` run unconditionally on the
exit path, so both options end up `none` after leaving pause. -/
def BoardInstance.handle_pause (s : BoardInstance) : BoardInstance :=
  if s.game_state = GameState.Paused then
    let s1 := { s with
      game_state := s.prev_game_state.getD GameState.Ready
      prev_game_state := none }
    match s.pause_state with
    | some ps =>
      { s1 with
        pause_state := none
        gravity_timer := ps.gravity_timer
        lock_timer := ps.lock_timer }
    | none => { s1 with pause_state := none }
  else
    { s with
      prev_game_state := some s.game_state
      pause_state := some { gravity_timer := s.gravity_timer,
                            lock_timer := s.lock_timer }
      game_state := GameState.Paused }

/-- Mirrors `BoardInstance::handle_input`. -/
def BoardInstance.handle_input (s : BoardInstance) (input : PlayerInput) :
    BoardInstance :=
  match input with
  | PlayerInput.L =>
    match s.active_piece with
    | none => s
    | some piece =>
      (s.move_active_piece
        { x := piece.position.x - 1, y := piece.position.y }).1
  | PlayerInput.R =>
    match s.active_piece with
    | none => s
    | some piece =>
      (s.move_active_piece
        { x := piece.position.x + 1, y := piece.position.y }).1
  | PlayerInput.Rotate => s.rotate_active_piece
  | PlayerInput.HardDrop => s.hard_drop
  | PlayerInput.Pause => s.handle_pause

/-- Applies the optional per-tick input exactly as the
`if let Some(input) = input { self.handle_input(input) }` lines do. -/
def BoardInstance.apply_input (s : BoardInstance)
    (input : Option PlayerInput) : BoardInstance :=
  match input with
  | some i => s.handle_input i
  | none => s

/-- The lock-expiry block of the `Locking` arm of `BoardInstance::update`:
reset `lock_timer`, commit the active piece, run `clear_lines` on any rows
the commit reports, and return to the Ready phase. -/
def BoardInstance.lock_commit (s : BoardInstance) : BoardInstance :=
  let s4 := { s with lock_timer := 0 }
  let c := s4.commit_piece
  let s5 := match c.2 with
    | some filled_rows => c.1.clear_lines filled_rows
    | none => c.1
  { s5 with game_state := GameState.Ready }

/-- Mirrors `BoardInstance::update`, the per-tick state machine. The piece
type the rng would produce for a spawn is passed in as `new_typ`. Note the
source's `Locking` arm falls through from the fall re-check to the
`lock_timer += dt` accumulation with no `else`, and the `Falling` arm runs
its gravity section after `handle_input` regardless of any phase change the
input caused; both are mirrored exactly. -/
def BoardInstance.update (s : BoardInstance) (dt : Rat)
    (input : Option PlayerInput) (new_typ : PieceType) : BoardInstance :=
  match s.game_state with
  | GameState.Ready =>
    let r := s.spawn_new_piece new_typ
    if r.2 then { r.1 with game_state := GameState.Falling }
    else { r.1 with game_state := GameState.GameOver }
  | GameState.Falling =>
    let s1 := s.apply_input input
    let s2 := { s1 with gravity_timer := s1.gravity_timer + dt }
    if s2.gravity_timer ≥ s2.gravity_interval then
      let s3 := { s2 with gravity_timer := 0 }
      let g := s3.apply_gravity
      if g.2 then g.1 else { g.1 with game_state := GameState.Locking }
    else s2
  | GameState.Locking =>
    let s1 := s.apply_input input
    let s2 :=
      match s1.active_piece with
      | some piece =>
        let next_pos : BoardPosition :=
          { x := piece.position.x, y := piece.position.y - 1 }
        if s1.board.try_place piece next_pos = PlaceResult.PlaceOk then
          { s1 with
            active_piece := some { piece with position := next_pos }
            lock_timer := 0
            gravity_timer := 0
            game_state := GameState.Falling }
        else s1
      | none => s1
    let s3 := { s2 with lock_timer := s2.lock_timer + dt }
    if s3.lock_timer ≥ s3.lock_delay then s3.lock_commit else s3
  | GameState.GameOver => s
  | GameState.Paused => s.apply_input input

/-! ## Concrete fixtures

A concrete geometry-catalog entry (the O piece: a 2x2 square, one rotation,
skirt 0 in both columns) and small boards/instances used by the concrete
evaluations below. -/

/-- The O piece: cells (0,0),(1,0),(0,1),(1,1) in every rotation, skirt 0. -/
def demo_o_piece : PieceType :=
  { rotation_count := 1
    get_rotation := fun _ => [(0, 0), (1, 0), (0, 1), (1, 1)]
    skirt := fun _ _ => 0
    minmax_x := fun _ => (0, 1)
    max_x := fun _ => 1
    max_y := fun _ => 1 }

/-- An arbitrary color tag. -/
def demo_color : Rgba := ⟨0, 0, 0, 1⟩

/-- Iterated one-step gravity: repeatedly run the source's
`BoardInstance::apply_gravity` until it reports the piece blocked (or the
fuel runs out); this is the reference process the drop-equivalence claim
compares `get_drop_location` against. -/
def gravity_steps : Nat → BoardInstance → BoardInstance
  | 0, s => s
  | n + 1, s =>
    let g := s.apply_gravity
    if g.2 then gravity_steps n g.1 else g.1

/-- A 10x20 board with the single cell (3,0) filled. -/
def c1_board : Board := ((Board.new 10 20).fill_cell ⟨3, 0⟩).1

/-- An O piece hovering at (3,5) over the filled cell (3,0). -/
def c1_piece : PieceInstance := ⟨demo_o_piece, demo_color, 0, ⟨3, 5⟩⟩

/-- A falling instance holding `c1_piece` over `c1_board`. -/
def c1_state : BoardInstance :=
  { board := c1_board, color := demo_color, game_state := GameState.Falling
    prev_game_state := none, pause_state := none
    active_piece := some c1_piece
    gravity_interval := 1, gravity_timer := 0, lock_delay := 1, lock_timer := 0 }

/-- An empty 4x6 board. -/
def c2_board : Board := Board.new 4 6

/-- An O piece at (1,2): it can still fall one row. -/
def c2_piece : PieceInstance := ⟨demo_o_piece, demo_color, 0, ⟨1, 2⟩⟩

/-- A Locking-phase instance whose piece can fall one row. -/
def c2_state : BoardInstance :=
  { board := c2_board, color := demo_color, game_state := GameState.Locking
    prev_game_state := none, pause_state := none
    active_piece := some c2_piece
    gravity_interval := 10, gravity_timer := 0, lock_delay := 1, lock_timer := 0 }

/-- A Paused instance (pre-pause phase Falling) with an O piece at (2,2). -/
def c3_state : BoardInstance :=
  { board := Board.new 6 6, color := demo_color, game_state := GameState.Paused
    prev_game_state := some GameState.Falling, pause_state := some ⟨0, 0⟩
    active_piece := some ⟨demo_o_piece, demo_color, 0, ⟨2, 2⟩⟩
    gravity_interval := 1, gravity_timer := 0, lock_delay := 1, lock_timer := 0 }

/-- An O piece resting at the origin of a 2-wide board: committing it fills
rows 0 and 1 completely. -/
def c4_piece : PieceInstance := ⟨demo_o_piece, demo_color, 0, ⟨0, 0⟩⟩

/-- An empty 2x4 board. -/
def c4_board : Board := Board.new 2 4

/-- A Locking-phase instance one tick away from committing `c4_piece`. -/
def c4_state : BoardInstance :=
  { board := c4_board, color := demo_color, game_state := GameState.Locking
    prev_game_state := none, pause_state := none
    active_piece := some c4_piece
    gravity_interval := 10, gravity_timer := 0, lock_delay := 1, lock_timer := 0 }

/-- A one-cell-per-rotation test piece: rotation 0 occupies (0,0), rotation 1
occupies (5,0) (far to the right, off a small board). -/
def c8_typ : PieceType :=
  { rotation_count := 2
    get_rotation := fun r => if r = 0 then [(0, 0)] else [(5, 0)]
    skirt := fun _ _ => 0
    minmax_x := fun _ => (0, 0)
    max_x := fun _ => 0
    max_y := fun _ => 0 }

/-- A two-cell piece whose second cell sits one row below its first. -/
def c5_typ : PieceType :=
  { rotation_count := 1
    get_rotation := fun _ => [(0, 0), (0, -1)]
    skirt := fun _ _ => 0
    minmax_x := fun _ => (0, 0)
    max_x := fun _ => 0
    max_y := fun _ => 0 }

/-- A 2x2 board whose cell (0,0) is filled. -/
def c5_board : Board := ((Board.new 2 2).fill_cell ⟨0, 0⟩).1

/-- A `c5_typ` piece stored at the origin. -/
def c5_piece : PieceInstance := ⟨c5_typ, demo_color, 0, ⟨0, 0⟩⟩

/-- A 2x2 empty board hosting the rotation test. -/
def c8_state : BoardInstance :=
  { board := Board.new 2 2, color := demo_color, game_state := GameState.Falling
    prev_game_state := none, pause_state := none
    active_piece := some ⟨c8_typ, demo_color, 0, ⟨0, 0⟩⟩
    gravity_interval := 1, gravity_timer := 0, lock_delay := 1, lock_timer := 0 }

/-- Find-first reading of the placement check, written from the spec's words
as amended: the result is decided by the first cell (in catalog order) that
is out of bounds or occupied; out of bounds reports `OutOfBounds`, occupied
reports `PlaceBad`, and `PlaceOk` means no such cell exists. -/
def place_result_spec (b : Board) (cells_abs : List BoardPosition) :
    PlaceResult :=
  match cells_abs.find?
      (fun cp => (b.idx cp.x cp.y).isNone || b.is_cell_filled cp) with
  | none => PlaceResult.PlaceOk
  | some cp =>
    if (b.idx cp.x cp.y).isNone then PlaceResult.OutOfBounds
    else PlaceResult.PlaceBad

/-- The state components of a `BoardInstance` other than the phase and the
active piece: board, pause bookkeeping, timers, configuration, color. -/
def frame (s : BoardInstance) :
    Board × Option GameState × Option PauseState × Rat × Rat × Rat × Rat ×
      Rgba :=
  (s.board, s.prev_game_state, s.pause_state, s.gravity_timer, s.lock_timer,
   s.gravity_interval, s.lock_delay, s.color)

/-- Absolute board cells a piece occupies at its stored position (the
`position + offsets` relationship used by `commit_piece` and `draw`). -/
def PieceInstance.cells_abs (p : PieceInstance) : List BoardPosition :=
  p.cells.map (fun d => ⟨p.position.x + d.1, p.position.y + d.2⟩)

/-- Well-formedness of a board value: non-negative dimensions and the array
lengths `Board::new` establishes and every mutation preserves. -/
def Board.WF (b : Board) : Prop :=
  0 ≤ b.width ∧ 0 ≤ b.height ∧
  b.grid.length = (b.width * b.height).toNat ∧
  b.row_score.length = b.height.toNat ∧
  b.col_score.length = b.width.toNat

instance (b : Board) : Decidable b.WF := by
  unfold Board.WF
  infer_instance

/-- The spec's phase/piece invariant: the active piece is present iff the
phase is Falling or Locking, or Paused with the saved pre-pause phase in
that set. -/
def Inv (s : BoardInstance) : Prop :=
  s.active_piece.isSome = true ↔
    (s.game_state = GameState.Falling ∨ s.game_state = GameState.Locking ∨
      (s.game_state = GameState.Paused ∧
        (s.prev_game_state = some GameState.Falling ∨
         s.prev_game_state = some GameState.Locking)))

/-- Board-instance states reachable from construction by any sequence of
per-tick updates, with arbitrary elapsed times, player actions, and
rng-chosen spawn piece types. -/
inductive Reachable : BoardInstance → Prop where
  | init (width height : Nat) (color : Rgba) (gravity_interval : Rat)
      (lock_delay : Rat) :
      Reachable (BoardInstance.new width height color gravity_interval
        lock_delay)
  | step (s : BoardInstance) (dt : Rat) (input : Option PlayerInput)
      (new_typ : PieceType) : Reachable s →
      Reachable (s.update dt input new_typ)

/-! ## Helper lemmas -/

theorem getD_set_self {α : Type} (l : List α) (i : Nat) (v d : α)
    (h : i < l.length) : (l.set i v).getD i d = v := by
  simp [List.getD_eq_getElem?_getD, List.getElem?_set_self h]

theorem getD_set_ne {α : Type} (l : List α) {i j : Nat} (v d : α)
    (h : i ≠ j) : (l.set i v).getD j d = l.getD j d := by
  simp [List.getD_eq_getElem?_getD, List.getElem?_set_ne h]

theorem getD_set_true (l : List Bool) (i j : Nat)
    (h : l.getD j false = true) : (l.set i true).getD j false = true := by
  by_cases hij : i = j
  · subst hij
    by_cases hl : i < l.length
    · rw [getD_set_self _ _ _ _ hl]
    · rw [List.set_eq_of_length_le (by omega)]
      exact h
  · rw [getD_set_ne _ _ _ hij]
    exact h

theorem idx_isSome (b : Board) (x y : Int) :
    (b.idx x y).isSome = true ↔
      0 ≤ x ∧ 0 ≤ y ∧ x < b.width ∧ y < b.height := by
  unfold Board.idx
  split <;> rename_i h <;> simp <;> omega

theorem cell_index_lt (w h x y : Int) (hx0 : 0 ≤ x) (_hy0 : 0 ≤ y)
    (hxw : x < w) (hyh : y < h) : y * w + x < w * h := by
  calc y * w + x < y * w + w := by omega
    _ = (y + 1) * w := by ring
    _ ≤ h * w := by
        apply mul_le_mul_of_nonneg_right <;> omega
    _ = w * h := by ring

theorem fill_cell_eq (b : Board) (pos : BoardPosition) (hx0 : 0 ≤ pos.x)
    (hy0 : 0 ≤ pos.y) (hxw : pos.x < b.width) (hyh : pos.y < b.height) :
    b.fill_cell pos =
      (let b1 : Board :=
        { b with grid := b.grid.set (pos.y * b.width + pos.x).toNat true }
       let b2 := b1.update_col_score pos
       let r := b2.update_row_score pos
       (r.1,
        if r.2 = b.width then PlaceResult.RowFilled
        else PlaceResult.PlaceOk)) := by
  unfold Board.fill_cell Board.idx
  rw [if_neg (by omega)]

theorem fill_cell_width (b : Board) (pos : BoardPosition) (hx0 : 0 ≤ pos.x)
    (hy0 : 0 ≤ pos.y) (hxw : pos.x < b.width) (hyh : pos.y < b.height) :
    (b.fill_cell pos).1.width = b.width := by
  rw [fill_cell_eq b pos hx0 hy0 hxw hyh]
  dsimp [Board.update_col_score, Board.update_row_score]
  split <;> rfl

theorem fill_cell_height (b : Board) (pos : BoardPosition) (hx0 : 0 ≤ pos.x)
    (hy0 : 0 ≤ pos.y) (hxw : pos.x < b.width) (hyh : pos.y < b.height) :
    (b.fill_cell pos).1.height = b.height := by
  rw [fill_cell_eq b pos hx0 hy0 hxw hyh]
  dsimp [Board.update_col_score, Board.update_row_score]
  split <;> rfl

theorem fill_cell_grid (b : Board) (pos : BoardPosition) (hx0 : 0 ≤ pos.x)
    (hy0 : 0 ≤ pos.y) (hxw : pos.x < b.width) (hyh : pos.y < b.height) :
    (b.fill_cell pos).1.grid =
      b.grid.set (pos.y * b.width + pos.x).toNat true := by
  rw [fill_cell_eq b pos hx0 hy0 hxw hyh]
  dsimp [Board.update_col_score, Board.update_row_score]
  split <;> rfl

theorem fill_cell_row_list (b : Board) (pos : BoardPosition) (hx0 : 0 ≤ pos.x)
    (hy0 : 0 ≤ pos.y) (hxw : pos.x < b.width) (hyh : pos.y < b.height) :
    (b.fill_cell pos).1.row_score =
      b.row_score.set pos.y.toNat (b.row_score.getD pos.y.toNat 0 + 1) := by
  rw [fill_cell_eq b pos hx0 hy0 hxw hyh]
  dsimp [Board.update_col_score, Board.update_row_score]
  split <;> rfl

theorem fill_cell_col_list (b : Board) (pos : BoardPosition) (hx0 : 0 ≤ pos.x)
    (hy0 : 0 ≤ pos.y) (hxw : pos.x < b.width) (hyh : pos.y < b.height) :
    (b.fill_cell pos).1.col_score =
      if pos.y ≥ b.col_score.getD pos.x.toNat 0 then
        b.col_score.set pos.x.toNat (pos.y + 1)
      else b.col_score := by
  rw [fill_cell_eq b pos hx0 hy0 hxw hyh]
  dsimp [Board.update_col_score, Board.update_row_score]
  split <;> simp

theorem fill_cell_snd (b : Board) (pos : BoardPosition) (hx0 : 0 ≤ pos.x)
    (hy0 : 0 ≤ pos.y) (hxw : pos.x < b.width) (hyh : pos.y < b.height) :
    (b.fill_cell pos).2 =
      if b.row_score.getD pos.y.toNat 0 + 1 = b.width then
        PlaceResult.RowFilled
      else PlaceResult.PlaceOk := by
  rw [fill_cell_eq b pos hx0 hy0 hxw hyh]
  dsimp [Board.update_col_score, Board.update_row_score]
  split <;> rfl

theorem fill_cell_wf (b : Board) (pos : BoardPosition) (hwf : b.WF)
    (hx0 : 0 ≤ pos.x) (hy0 : 0 ≤ pos.y) (hxw : pos.x < b.width)
    (hyh : pos.y < b.height) : (b.fill_cell pos).1.WF := by
  obtain ⟨h1, h2, h3, h4, h5⟩ := hwf
  refine ⟨?_, ?_, ?_, ?_, ?_⟩
  · rw [fill_cell_width b pos hx0 hy0 hxw hyh]
    exact h1
  · rw [fill_cell_height b pos hx0 hy0 hxw hyh]
    exact h2
  · rw [fill_cell_grid b pos hx0 hy0 hxw hyh, List.length_set,
      fill_cell_width b pos hx0 hy0 hxw hyh,
      fill_cell_height b pos hx0 hy0 hxw hyh]
    exact h3
  · rw [fill_cell_row_list b pos hx0 hy0 hxw hyh, List.length_set,
      fill_cell_height b pos hx0 hy0 hxw hyh]
    exact h4
  · rw [fill_cell_col_list b pos hx0 hy0 hxw hyh,
      fill_cell_width b pos hx0 hy0 hxw hyh]
    split
    · rw [List.length_set]
      exact h5
    · exact h5

theorem fill_cell_row_val (b : Board) (pos : BoardPosition) (hwf : b.WF)
    (hx0 : 0 ≤ pos.x) (hy0 : 0 ≤ pos.y) (hxw : pos.x < b.width)
    (hyh : pos.y < b.height) (k : Nat) :
    (b.fill_cell pos).1.row_score.getD k 0 =
      b.row_score.getD k 0 + (if pos.y = (k : Int) then 1 else 0) := by
  obtain ⟨h1, h2, h3, h4, h5⟩ := hwf
  rw [fill_cell_row_list b pos hx0 hy0 hxw hyh]
  by_cases hk : pos.y = (k : Int)
  · have hkt : pos.y.toNat = k := by omega
    rw [hkt] at *
    rw [getD_set_self _ _ _ _ (by omega), if_pos hk]
  · have hkt : pos.y.toNat ≠ k := by omega
    rw [getD_set_ne _ _ _ hkt, if_neg hk]
    omega

theorem fill_cell_col_val (b : Board) (pos : BoardPosition) (hwf : b.WF)
    (hx0 : 0 ≤ pos.x) (hy0 : 0 ≤ pos.y) (hxw : pos.x < b.width)
    (hyh : pos.y < b.height) (k : Nat) :
    (b.fill_cell pos).1.col_score.getD k 0 =
      if pos.x = (k : Int) then
        max (b.col_score.getD k 0) (pos.y + 1)
      else b.col_score.getD k 0 := by
  obtain ⟨h1, h2, h3, h4, h5⟩ := hwf
  rw [fill_cell_col_list b pos hx0 hy0 hxw hyh]
  by_cases hk : pos.x = (k : Int)
  · have hkt : pos.x.toNat = k := by omega
    rw [hkt] at *
    rw [if_pos hk]
    split <;> rename_i hge
    · rw [getD_set_self _ _ _ _ (by omega)]
      omega
    · omega
  · have hkt : pos.x.toNat ≠ k := by omega
    rw [if_neg hk]
    split
    · rw [getD_set_ne _ _ _ hkt]
    · rfl

theorem fill_cell_filled_self (b : Board) (pos : BoardPosition) (hwf : b.WF)
    (hx0 : 0 ≤ pos.x) (hy0 : 0 ≤ pos.y) (hxw : pos.x < b.width)
    (hyh : pos.y < b.height) :
    (b.fill_cell pos).1.is_cell_filled pos = true := by
  obtain ⟨h1, h2, h3, h4, h5⟩ := hwf
  have hidx : (b.fill_cell pos).1.idx pos.x pos.y =
      some (pos.y * b.width + pos.x).toNat := by
    unfold Board.idx
    rw [fill_cell_width b pos hx0 hy0 hxw hyh,
      fill_cell_height b pos hx0 hy0 hxw hyh, if_neg (by omega)]
  unfold Board.is_cell_filled
  rw [hidx]
  show (b.fill_cell pos).1.grid.getD (pos.y * b.width + pos.x).toNat false =
    true
  rw [fill_cell_grid b pos hx0 hy0 hxw hyh]
  have hlt : (pos.y * b.width + pos.x).toNat < b.grid.length := by
    have ha := cell_index_lt b.width b.height pos.x pos.y hx0 hy0 hxw hyh
    have hb : 0 ≤ pos.y * b.width := mul_nonneg hy0 (by omega)
    omega
  rw [getD_set_self _ _ _ _ hlt]

theorem fill_cell_mono (b : Board) (pos : BoardPosition)
    (hx0 : 0 ≤ pos.x) (hy0 : 0 ≤ pos.y) (hxw : pos.x < b.width)
    (hyh : pos.y < b.height) (q : BoardPosition)
    (hq : b.is_cell_filled q = true) :
    (b.fill_cell pos).1.is_cell_filled q = true := by
  unfold Board.is_cell_filled at hq ⊢
  have hidx : ∀ x y : Int, (b.fill_cell pos).1.idx x y = b.idx x y := by
    intro x y
    unfold Board.idx
    rw [fill_cell_width b pos hx0 hy0 hxw hyh,
      fill_cell_height b pos hx0 hy0 hxw hyh]
  rw [hidx]
  cases hj : b.idx q.x q.y with
  | none =>
    rw [hj] at hq
    simp at hq
  | some j =>
    rw [hj] at hq
    replace hq : b.grid.getD j false = true := hq
    show (b.fill_cell pos).1.grid.getD j false = true
    rw [fill_cell_grid b pos hx0 hy0 hxw hyh]
    exact getD_set_true _ _ _ hq

theorem try_place_cells_ok (b : Board) (pos : BoardPosition)
    (cs : List (Int × Int))
    (h : b.try_place_cells pos cs = PlaceResult.PlaceOk) :
    ∀ d ∈ cs, (b.idx (pos.x + d.1) (pos.y + d.2)).isSome = true ∧
      b.is_cell_filled ⟨pos.x + d.1, pos.y + d.2⟩ = false := by
  induction cs with
  | nil => simp
  | cons c rest ih =>
    obtain ⟨dx, dy⟩ := c
    unfold Board.try_place_cells at h
    by_cases h1 : (b.idx (pos.x + dx) (pos.y + dy)).isNone = true
    · rw [if_pos h1] at h
      exact absurd h (by simp)
    · rw [if_neg h1] at h
      by_cases h2 : b.is_cell_filled ⟨pos.x + dx, pos.y + dy⟩ = true
      · rw [if_pos h2] at h
        exact absurd h (by simp)
      · rw [if_neg h2] at h
        intro d hd
        rcases List.mem_cons.mp hd with hd | hd
        · cases hd
          refine ⟨?_, ?_⟩
          · show (b.idx (pos.x + dx) (pos.y + dy)).isSome = true
            cases hopt : b.idx (pos.x + dx) (pos.y + dy) with
            | none => rw [hopt] at h1; simp at h1
            | some v => rfl
          · show b.is_cell_filled ⟨pos.x + dx, pos.y + dy⟩ = false
            simpa using h2
        · exact ih h d hd

theorem commit_cells_spec (cs : List (Int × Int)) (b : Board)
    (pos : BoardPosition) (hwf : b.WF)
    (hin : ∀ d ∈ cs, (b.idx (pos.x + d.1) (pos.y + d.2)).isSome = true) :
    (b.commit_cells pos cs).1.width = b.width ∧
    (b.commit_cells pos cs).1.height = b.height ∧
    (b.commit_cells pos cs).1.WF ∧
    (∀ q : BoardPosition, b.is_cell_filled q = true →
      (b.commit_cells pos cs).1.is_cell_filled q = true) ∧
    (∀ d ∈ cs, (b.commit_cells pos cs).1.is_cell_filled
        ⟨pos.x + d.1, pos.y + d.2⟩ = true) ∧
    (∀ k : Nat, (b.commit_cells pos cs).1.row_score.getD k 0 =
      b.row_score.getD k 0 +
        (cs.countP (fun d => pos.y + d.2 = (k : Int)) : Int)) ∧
    (∀ k : Nat, (b.commit_cells pos cs).1.col_score.getD k 0 =
      cs.foldl
        (fun acc d =>
          if pos.x + d.1 = (k : Int) then max acc (pos.y + d.2 + 1) else acc)
        (b.col_score.getD k 0)) ∧
    (∀ y ∈ (b.commit_cells pos cs).2, 0 ≤ y ∧ y < b.height) ∧
    (∀ y : Int, 0 ≤ y →
      (b.commit_cells pos cs).2.count y =
        if b.row_score.getD y.toNat 0 < b.width ∧
            b.width ≤ b.row_score.getD y.toNat 0 +
              (cs.countP (fun d => pos.y + d.2 = y) : Int)
        then 1 else 0) := by
  induction cs generalizing b with
  | nil =>
    have h0 : b.commit_cells pos [] = (b, []) := rfl
    refine ⟨by rw [h0], by rw [h0], by rw [h0]; exact hwf, ?_, by simp, ?_,
      ?_, ?_, ?_⟩
    · intro q hq
      rw [h0]
      exact hq
    · intro k
      rw [h0]
      simp
    · intro k
      rw [h0]
      simp
    · intro y hy
      rw [h0] at hy
      simp at hy
    · intro y hy
      rw [h0]
      show (List.count y ([] : List Int)) = _
      simp only [List.count_nil, List.countP_nil]
      split <;> rename_i hcond
      · obtain ⟨ha, hb⟩ := hcond
        push_cast at hb
        omega
      · rfl
  | cons c rest ih =>
    obtain ⟨dx, dy⟩ := c
    have hhead := hin (dx, dy) (List.mem_cons_self _ _)
    rw [idx_isSome] at hhead
    obtain ⟨hx0, hy0, hxw, hyh⟩ := hhead
    have hfw := fill_cell_width b ⟨pos.x + dx, pos.y + dy⟩ hx0 hy0 hxw hyh
    have hfh := fill_cell_height b ⟨pos.x + dx, pos.y + dy⟩ hx0 hy0 hxw hyh
    have hfwf := fill_cell_wf b ⟨pos.x + dx, pos.y + dy⟩ hwf hx0 hy0 hxw hyh
    have hidx_eq : ∀ x y : Int,
        (b.fill_cell ⟨pos.x + dx, pos.y + dy⟩).1.idx x y = b.idx x y := by
      intro x y
      unfold Board.idx
      rw [hfw, hfh]
    have hin' : ∀ d ∈ rest,
        ((b.fill_cell ⟨pos.x + dx, pos.y + dy⟩).1.idx (pos.x + d.1)
          (pos.y + d.2)).isSome = true := by
      intro d hd
      rw [hidx_eq]
      exact hin d (List.mem_cons_of_mem _ hd)
    obtain ⟨ihw, ihh, ihwf, ihmono, ihcells, ihrow, ihcol, ihbnd, ihcnt⟩ :=
      ih (b.fill_cell ⟨pos.x + dx, pos.y + dy⟩).1 hfwf hin'
    have h1 : (b.commit_cells pos ((dx, dy) :: rest)).1 =
        ((b.fill_cell ⟨pos.x + dx, pos.y + dy⟩).1.commit_cells pos rest).1 :=
      rfl
    have h2 : (b.commit_cells pos ((dx, dy) :: rest)).2 =
        (if (b.fill_cell ⟨pos.x + dx, pos.y + dy⟩).2 = PlaceResult.RowFilled
         then (pos.y + dy) ::
            ((b.fill_cell ⟨pos.x + dx, pos.y + dy⟩).1.commit_cells pos rest).2
         else
            ((b.fill_cell ⟨pos.x + dx, pos.y + dy⟩).1.commit_cells pos
              rest).2) := rfl
    refine ⟨?_, ?_, ?_, ?_, ?_, ?_, ?_, ?_, ?_⟩
    · rw [h1, ihw, hfw]
    · rw [h1, ihh, hfh]
    · rw [h1]
      exact ihwf
    · intro q hq
      rw [h1]
      exact ihmono q
        (fill_cell_mono b ⟨pos.x + dx, pos.y + dy⟩ hx0 hy0 hxw hyh q hq)
    · intro d hd
      rw [h1]
      rcases List.mem_cons.mp hd with hd | hd
      · cases hd
        exact ihmono _
          (fill_cell_filled_self b ⟨pos.x + dx, pos.y + dy⟩ hwf hx0 hy0 hxw
            hyh)
      · exact ihcells d hd
    · intro k
      rw [h1, ihrow k,
        fill_cell_row_val b ⟨pos.x + dx, pos.y + dy⟩ hwf hx0 hy0 hxw hyh k]
      simp only [List.countP_cons, decide_eq_true_eq]
      push_cast
      split_ifs <;> omega
    · intro k
      rw [h1, ihcol k,
        fill_cell_col_val b ⟨pos.x + dx, pos.y + dy⟩ hwf hx0 hy0 hxw hyh k,
        List.foldl_cons]
    · intro y hy
      rw [h2] at hy
      split at hy
      · rcases List.mem_cons.mp hy with hy | hy
        · cases hy
          constructor <;> omega
        · have := ihbnd y hy
          rw [hfh] at this
          exact this
      · have := ihbnd y hy
        rw [hfh] at this
        exact this
    · intro y hy0'
      have hyt : ((y.toNat : Int)) = y := by omega
      have hpre1 : (b.fill_cell ⟨pos.x + dx, pos.y + dy⟩).1.row_score.getD
          y.toNat 0 =
          b.row_score.getD y.toNat 0 + (if pos.y + dy = y then 1 else 0) := by
        rw [fill_cell_row_val b ⟨pos.x + dx, pos.y + dy⟩ hwf hx0 hy0 hxw hyh
          y.toNat, hyt]
      have hcntr := ihcnt y hy0'
      rw [hpre1, hfw] at hcntr
      have hsnd := fill_cell_snd b ⟨pos.x + dx, pos.y + dy⟩ hx0 hy0 hxw hyh
      simp only [List.countP_cons, decide_eq_true_eq]
      by_cases hcy : pos.y + dy = y
      · rw [if_pos hcy] at hcntr
        by_cases hfill : (b.fill_cell ⟨pos.x + dx, pos.y + dy⟩).2 =
            PlaceResult.RowFilled
        · rw [hsnd] at hfill
          have hfe : b.row_score.getD (pos.y + dy).toNat 0 + 1 = b.width := by
            by_contra hne
            rw [if_neg hne] at hfill
            exact PlaceResult.noConfusion hfill
          rw [hcy] at hfe
          rw [h2, if_pos (by rw [hsnd, hcy] at *; exact hfill),
            List.count_cons, hcntr]
          simp only [hcy, beq_self_eq_true, if_pos, if_true]
          push_cast
          split_ifs <;> omega
        · rw [hsnd] at hfill
          have hfe : ¬ (b.row_score.getD (pos.y + dy).toNat 0 + 1 = b.width) :=
            by
            intro he
            rw [if_pos he] at hfill
            exact hfill rfl
          rw [hcy] at hfe
          rw [h2, if_neg (by rw [hsnd]; exact hfill), hcntr]
          push_cast
          split_ifs <;> omega
      · rw [if_neg hcy] at hcntr
        by_cases hfill : (b.fill_cell ⟨pos.x + dx, pos.y + dy⟩).2 =
            PlaceResult.RowFilled
        · rw [h2, if_pos hfill, List.count_cons, hcntr]
          have hbne : ((pos.y + dy) == y) = false := by
            simp [hcy]
          rw [hbne]
          push_cast
          split_ifs <;> omega
        · rw [h2, if_neg hfill, hcntr]
          push_cast
          split_ifs <;> omega

theorem frame_move (s : BoardInstance) (pos : BoardPosition) :
    frame (s.move_active_piece pos).1 = frame s := by
  unfold BoardInstance.move_active_piece
  cases s.active_piece with
  | none => rfl
  | some piece => dsimp; split <;> rfl

theorem gs_move (s : BoardInstance) (pos : BoardPosition) :
    (s.move_active_piece pos).1.game_state = s.game_state := by
  unfold BoardInstance.move_active_piece
  cases s.active_piece with
  | none => rfl
  | some piece => dsimp; split <;> rfl

theorem isSome_move (s : BoardInstance) (pos : BoardPosition) :
    (s.move_active_piece pos).1.active_piece.isSome =
      s.active_piece.isSome := by
  unfold BoardInstance.move_active_piece
  cases h : s.active_piece with
  | none => simp [h]
  | some piece => dsimp; split <;> simp [h]

theorem frame_rotate (s : BoardInstance) :
    frame s.rotate_active_piece = frame s := by
  unfold BoardInstance.rotate_active_piece
  cases s.active_piece with
  | none => rfl
  | some piece => dsimp; split <;> rfl

theorem gs_rotate (s : BoardInstance) :
    s.rotate_active_piece.game_state = s.game_state := by
  unfold BoardInstance.rotate_active_piece
  cases s.active_piece with
  | none => rfl
  | some piece => dsimp; split <;> rfl

theorem isSome_rotate (s : BoardInstance) :
    s.rotate_active_piece.active_piece.isSome = s.active_piece.isSome := by
  unfold BoardInstance.rotate_active_piece
  cases h : s.active_piece with
  | none => simp [h]
  | some piece => dsimp; split <;> simp [h]

theorem frame_hard_drop (s : BoardInstance) :
    frame s.hard_drop = frame s := by
  unfold BoardInstance.hard_drop
  cases h : s.active_piece with
  | none => rfl
  | some piece =>
    dsimp
    split
    · have := frame_move s (s.board.get_drop_location piece)
      simpa [frame] using this
    · exact frame_move s (s.board.get_drop_location piece)

theorem isSome_hard_drop (s : BoardInstance) :
    s.hard_drop.active_piece.isSome = s.active_piece.isSome := by
  unfold BoardInstance.hard_drop
  cases h : s.active_piece with
  | none => simp [h]
  | some piece =>
    dsimp
    split
    · have := isSome_move s (s.board.get_drop_location piece)
      simpa [h] using this
    · have := isSome_move s (s.board.get_drop_location piece)
      simpa [h] using this

theorem frame_handle_input (s : BoardInstance) (i : PlayerInput)
    (hi : i ≠ PlayerInput.Pause) :
    frame (s.handle_input i) = frame s := by
  cases i with
  | L =>
    unfold BoardInstance.handle_input
    cases s.active_piece with
    | none => rfl
    | some piece => exact frame_move s _
  | R =>
    unfold BoardInstance.handle_input
    cases s.active_piece with
    | none => rfl
    | some piece => exact frame_move s _
  | Rotate => exact frame_rotate s
  | HardDrop => exact frame_hard_drop s
  | Pause => exact absurd rfl hi

theorem frame_fields {t s : BoardInstance} (h : frame t = frame s) :
    t.board = s.board ∧ t.prev_game_state = s.prev_game_state ∧
    t.pause_state = s.pause_state ∧ t.gravity_timer = s.gravity_timer ∧
    t.lock_timer = s.lock_timer ∧ t.gravity_interval = s.gravity_interval ∧
    t.lock_delay = s.lock_delay ∧ t.color = s.color := by
  unfold frame at h
  simp only [Prod.mk.injEq] at h
  exact h

theorem move_active_piece_fail (s : BoardInstance) (pos : BoardPosition)
    (h : (s.move_active_piece pos).2 = false) :
    (s.move_active_piece pos).1 = s := by
  unfold BoardInstance.move_active_piece at *
  split at h
  · rfl
  · dsimp at h ⊢
    split at h <;> rename_i hc
    · exact absurd h (by simp)
    · rw [if_neg hc]

theorem spawn_success_piece (s : BoardInstance) (typ : PieceType)
    (h : (s.spawn_new_piece typ).2 = true) :
    (s.spawn_new_piece typ).1.active_piece.isSome = true := by
  unfold BoardInstance.spawn_new_piece at *
  dsimp at h ⊢
  split at h <;> rename_i hc
  · rw [if_pos hc]
    rfl
  · exact absurd h (by simp)

theorem spawn_success_gs (s : BoardInstance) (typ : PieceType) :
    (s.spawn_new_piece typ).1.game_state = s.game_state := by
  unfold BoardInstance.spawn_new_piece
  dsimp
  split <;> rfl

theorem spawn_fail_state (s : BoardInstance) (typ : PieceType)
    (h : (s.spawn_new_piece typ).2 = false) :
    (s.spawn_new_piece typ).1 = s := by
  unfold BoardInstance.spawn_new_piece at *
  dsimp at h ⊢
  split at h <;> rename_i hc
  · exact absurd h (by simp)
  · rw [if_neg hc]

theorem gravity_gs (s : BoardInstance) :
    (s.apply_gravity).1.game_state = s.game_state := by
  unfold BoardInstance.apply_gravity
  cases s.active_piece with
  | none => rfl
  | some piece => dsimp; split <;> rfl

theorem gravity_prev (s : BoardInstance) :
    (s.apply_gravity).1.prev_game_state = s.prev_game_state := by
  unfold BoardInstance.apply_gravity
  cases s.active_piece with
  | none => rfl
  | some piece => dsimp; split <;> rfl

theorem gravity_isSome (s : BoardInstance) :
    (s.apply_gravity).1.active_piece.isSome = s.active_piece.isSome := by
  unfold BoardInstance.apply_gravity
  cases h : s.active_piece with
  | none => simp [h]
  | some piece => dsimp; split <;> simp [h]

theorem commit_piece_none (s : BoardInstance) :
    (s.commit_piece).1.active_piece = none := by
  unfold BoardInstance.commit_piece
  cases s.active_piece <;> rfl

theorem commit_piece_gs (s : BoardInstance) :
    (s.commit_piece).1.game_state = s.game_state := by
  unfold BoardInstance.commit_piece
  cases s.active_piece <;> rfl

theorem isSome_handle_pause (s : BoardInstance) :
    s.handle_pause.active_piece.isSome = s.active_piece.isSome := by
  unfold BoardInstance.handle_pause
  by_cases hp : s.game_state = GameState.Paused
  · rw [if_pos hp]
    cases s.pause_state <;> rfl
  · rw [if_neg hp]

theorem isSome_handle_input (s : BoardInstance) (i : PlayerInput) :
    (s.handle_input i).active_piece.isSome = s.active_piece.isSome := by
  cases i with
  | L =>
    unfold BoardInstance.handle_input
    cases hap : s.active_piece with
    | none =>
      show s.active_piece.isSome = (none : Option PieceInstance).isSome
      rw [hap]
    | some piece =>
      show (s.move_active_piece
          ⟨piece.position.x - 1, piece.position.y⟩).1.active_piece.isSome =
        (some piece).isSome
      rw [isSome_move, hap]
  | R =>
    unfold BoardInstance.handle_input
    cases hap : s.active_piece with
    | none =>
      show s.active_piece.isSome = (none : Option PieceInstance).isSome
      rw [hap]
    | some piece =>
      show (s.move_active_piece
          ⟨piece.position.x + 1, piece.position.y⟩).1.active_piece.isSome =
        (some piece).isSome
      rw [isSome_move, hap]
  | Rotate => exact isSome_rotate s
  | HardDrop => exact isSome_hard_drop s
  | Pause => exact isSome_handle_pause s

theorem isSome_apply_input (s : BoardInstance) (input : Option PlayerInput) :
    (s.apply_input input).active_piece.isSome = s.active_piece.isSome := by
  cases input with
  | none => rfl
  | some i => exact isSome_handle_input s i

theorem inv_of_proj {t u : BoardInstance}
    (hpiece : t.active_piece.isSome = u.active_piece.isSome)
    (hgs : t.game_state = u.game_state)
    (hprev : t.prev_game_state = u.prev_game_state) (h : Inv u) : Inv t := by
  unfold Inv at *
  rw [hpiece, hgs, hprev]
  exact h

theorem inv_some_falling (t : BoardInstance)
    (hs : t.active_piece.isSome = true)
    (hgs : t.game_state = GameState.Falling) : Inv t := by
  unfold Inv
  rw [hs, hgs]
  simp

theorem inv_some_locking (t : BoardInstance)
    (hs : t.active_piece.isSome = true)
    (hgs : t.game_state = GameState.Locking) : Inv t := by
  unfold Inv
  rw [hs, hgs]
  simp

theorem inv_none_of (t : BoardInstance)
    (hs : t.active_piece.isSome = false)
    (hgs : t.game_state = GameState.Ready ∨
      t.game_state = GameState.GameOver) : Inv t := by
  unfold Inv
  rw [hs]
  rcases hgs with h | h <;> rw [h] <;> simp

theorem inv_move (s : BoardInstance) (pos : BoardPosition) (h : Inv s) :
    Inv (s.move_active_piece pos).1 :=
  inv_of_proj (isSome_move s pos) (gs_move s pos)
    (frame_fields (frame_move s pos)).2.1 h

theorem inv_rotate (s : BoardInstance) (h : Inv s) :
    Inv s.rotate_active_piece :=
  inv_of_proj (isSome_rotate s) (gs_rotate s)
    (frame_fields (frame_rotate s)).2.1 h

theorem inv_hard_drop (s : BoardInstance) (h : Inv s) : Inv s.hard_drop := by
  unfold BoardInstance.hard_drop
  cases hap : s.active_piece with
  | none => exact h
  | some piece =>
    dsimp
    split <;> rename_i hmv
    · apply inv_some_locking
      · show (s.move_active_piece
          (s.board.get_drop_location piece)).1.active_piece.isSome = true
        rw [isSome_move, hap]
        rfl
      · rfl
    · rw [move_active_piece_fail s _ (by simpa using hmv)]
      exact h

theorem inv_handle_pause (s : BoardInstance) (h : Inv s) :
    Inv s.handle_pause := by
  unfold BoardInstance.handle_pause
  by_cases hp : s.game_state = GameState.Paused
  · rw [if_pos hp]
    unfold Inv at h
    rw [hp] at h
    simp only [] at h
    cases hps : s.pause_state <;>
      [skip; skip] <;>
      unfold Inv <;>
      cases hprev : s.prev_game_state with
      | none => simp [hprev] at h; simp [h]
      | some g =>
        rw [hprev] at h
        cases g <;> simp_all
  · rw [if_neg hp]
    unfold Inv at h ⊢
    simp only [hp, false_and, or_false] at h
    simp [h]

theorem inv_handle_input (s : BoardInstance) (i : PlayerInput) (h : Inv s) :
    Inv (s.handle_input i) := by
  cases i with
  | L =>
    unfold BoardInstance.handle_input
    cases hap : s.active_piece with
    | none => exact h
    | some piece => exact inv_move s _ h
  | R =>
    unfold BoardInstance.handle_input
    cases hap : s.active_piece with
    | none => exact h
    | some piece => exact inv_move s _ h
  | Rotate => exact inv_rotate s h
  | HardDrop => exact inv_hard_drop s h
  | Pause => exact inv_handle_pause s h

theorem inv_apply_input (s : BoardInstance) (input : Option PlayerInput)
    (h : Inv s) : Inv (s.apply_input input) := by
  cases input with
  | none => exact h
  | some i => exact inv_handle_input s i h

theorem inv_isSome_false (t : BoardInstance) (hinv : Inv t)
    (hgs : t.game_state = GameState.Ready ∨
      t.game_state = GameState.GameOver) :
    t.active_piece.isSome = false := by
  cases hb : t.active_piece.isSome
  · rfl
  · exfalso
    have hrhs := hinv.mp hb
    rcases hgs with hg | hg <;> rw [hg] at hrhs <;>
      rcases hrhs with h1 | h1 | ⟨h1, _⟩ <;> exact GameState.noConfusion h1

theorem lock_commit_piece_none (t : BoardInstance) :
    t.lock_commit.active_piece = none := by
  unfold BoardInstance.lock_commit
  dsimp
  cases hc : (({ t with lock_timer := 0 } : BoardInstance).commit_piece).2
  · exact commit_piece_none _
  · exact commit_piece_none _

theorem inv_lock_commit (t : BoardInstance) : Inv t.lock_commit := by
  apply inv_none_of
  · rw [lock_commit_piece_none]
    rfl
  · exact Or.inl rfl

theorem inv_update (s : BoardInstance) (dt : Rat)
    (input : Option PlayerInput) (new_typ : PieceType) (h : Inv s) :
    Inv (s.update dt input new_typ) := by
  unfold BoardInstance.update
  cases hgs : s.game_state with
  | Ready =>
    dsimp
    by_cases hsp : (s.spawn_new_piece new_typ).2 = true
    · rw [if_pos hsp]
      exact inv_some_falling _ (spawn_success_piece s new_typ hsp) rfl
    · rw [if_neg hsp]
      apply inv_none_of
      · show (s.spawn_new_piece new_typ).1.active_piece.isSome = false
        rw [spawn_fail_state s new_typ (by simpa using hsp)]
        exact inv_isSome_false s h (Or.inl hgs)
      · exact Or.inr rfl
  | Falling =>
    dsimp
    have h1 : Inv (s.apply_input input) := inv_apply_input s input h
    have hsome1 : (s.apply_input input).active_piece.isSome = true := by
      rw [isSome_apply_input]
      exact h.mpr (Or.inl hgs)
    split
    · split
      · exact inv_of_proj (gravity_isSome _) (gravity_gs _) (gravity_prev _)
          h1
      · apply inv_some_locking
        · exact (gravity_isSome _).trans hsome1
        · rfl
    · exact h1
  | Locking =>
    dsimp
    have h1 : Inv (s.apply_input input) := inv_apply_input s input h
    have hsome1 : (s.apply_input input).active_piece.isSome = true := by
      rw [isSome_apply_input]
      exact h.mpr (Or.inr (Or.inl hgs))
    cases hap : (s.apply_input input).active_piece with
    | none =>
      rw [hap] at hsome1
      simp at hsome1
    | some piece =>
      dsimp only
      by_cases htp : (s.apply_input input).board.try_place piece
          { x := piece.position.x, y := piece.position.y - 1 } =
          PlaceResult.PlaceOk
      · rw [if_pos htp]
        split
        · exact inv_lock_commit _
        · exact inv_some_falling _ rfl rfl
      · rw [if_neg htp]
        split
        · exact inv_lock_commit _
        · exact h1
  | GameOver => exact h
  | Paused => exact inv_apply_input s input h

theorem try_place_cells_eq_spec (b : Board) (pos : BoardPosition)
    (cs : List (Int × Int)) :
    b.try_place_cells pos cs =
      place_result_spec b
        (cs.map (fun d => ⟨pos.x + d.1, pos.y + d.2⟩)) := by
  induction cs with
  | nil => rfl
  | cons c rest ih =>
    obtain ⟨dx, dy⟩ := c
    show (if (b.idx (pos.x + dx) (pos.y + dy)).isNone then
            PlaceResult.OutOfBounds
          else if b.is_cell_filled ⟨pos.x + dx, pos.y + dy⟩ then
            PlaceResult.PlaceBad
          else b.try_place_cells pos rest) = _
    by_cases h1 : (b.idx (pos.x + dx) (pos.y + dy)).isNone = true
    · rw [if_pos h1]
      unfold place_result_spec
      rw [List.map_cons, List.find?_cons_of_pos _ (by simp [h1])]
      simp [h1]
    · rw [if_neg h1]
      by_cases h2 : b.is_cell_filled ⟨pos.x + dx, pos.y + dy⟩ = true
      · rw [if_pos h2]
        unfold place_result_spec
        rw [List.map_cons, List.find?_cons_of_pos _ (by simp [h2])]
        simp [h1]
      · rw [if_neg h2, ih]
        unfold place_result_spec
        rw [List.map_cons,
          List.find?_cons_of_neg _ (by simp [h1, h2])]

/-! ## Claim theorems -/

section ConcreteEvaluation

attribute [local semireducible] Rat.add Rat.mul Rat.inv Rat.sub

/-- C1, code bug: on a 10x20 board with the single cell (3,0) filled, an O
piece at x = 3 comes to rest at y = 1 under repeated one-step gravity (and
is then blocked), but `get_drop_location` reports y = 2 — the direct
computation adds one extra row above a non-empty column, so it does not
match iterative gravity. -/
theorem drop_location_differs_from_iterated_gravity :
    c1_board.try_place c1_piece c1_piece.position = PlaceResult.PlaceOk ∧
    (gravity_steps 10 c1_state).active_piece.map
        (fun p => p.position) = some ⟨3, 1⟩ ∧
    ((gravity_steps 10 c1_state).apply_gravity).2 = false ∧
    c1_board.get_drop_location c1_piece = ⟨3, 2⟩ ∧
    (⟨3, 2⟩ : BoardPosition) ≠ (⟨3, 1⟩ : BoardPosition) := by
  decide

/-- C2, code bug: in a Locking-phase tick whose piece can fall one row, the
source moves the piece, resets the timers and sets the phase to Falling, but
then still accumulates `lock_timer += dt` (there is no else): with
dt = lock_delay = 1 the commit fires in the same tick (phase ends Ready, the
piece is committed one row down), and with dt = 1/2 the tick ends in Falling
with lock_timer = 1/2, not 0. -/
theorem locking_tick_commits_after_successful_fall :
    c2_board.try_place c2_piece ⟨1, 1⟩ = PlaceResult.PlaceOk ∧
    (c2_state.update 1 none demo_o_piece).game_state = GameState.Ready ∧
    (c2_state.update 1 none demo_o_piece).active_piece.isNone = true ∧
    (c2_state.update 1 none demo_o_piece).board.is_cell_filled ⟨1, 1⟩ =
      true ∧
    (c2_state.update (1 / 2) none demo_o_piece).game_state =
      GameState.Falling ∧
    (c2_state.update (1 / 2) none demo_o_piece).lock_timer = 1 / 2 := by
  decide

/-- C3, counterexample: in a Paused instance with an O piece stored at
(2,2), a MoveLeft action is applied by the Paused branch and moves the piece
to (1,2), so a non-Pause action does not leave the active piece unchanged. -/
theorem paused_input_moves_piece :
    c3_state.game_state = GameState.Paused ∧
    c3_state.active_piece.map (fun p => p.position) = some ⟨2, 2⟩ ∧
    (c3_state.update 1 (some PlayerInput.L) demo_o_piece).active_piece.map
        (fun p => p.position) = some ⟨1, 2⟩ ∧
    some (⟨1, 2⟩ : BoardPosition) ≠ some (⟨2, 2⟩ : BoardPosition) := by
  decide

/-- C3, amended: while Paused, a tick with a non-Pause action performs
exactly the input handling (no gravity or lock processing for any dt), and
that handling leaves the grid, both timers, and the pause bookkeeping
unchanged — but it may move or rotate the active piece, and HardDrop also
forces the phase to Locking. -/
theorem paused_update_applies_input (s : BoardInstance) (dt : Rat)
    (i : PlayerInput) (typ : PieceType)
    (hp : s.game_state = GameState.Paused) (hi : i ≠ PlayerInput.Pause) :
    s.update dt (some i) typ = s.handle_input i ∧
    frame (s.handle_input i) = frame s := by
  refine ⟨?_, frame_handle_input s i hi⟩
  unfold BoardInstance.update
  rw [hp]
  rfl

/-- C3, witness: the amended theorem applied at the concrete Paused state. -/
theorem paused_update_applies_input_witness :
    c3_state.game_state = GameState.Paused ∧
    PlayerInput.L ≠ PlayerInput.Pause ∧
    (c3_state.update 1 (some PlayerInput.L) demo_o_piece =
        c3_state.handle_input PlayerInput.L ∧
      frame (c3_state.handle_input PlayerInput.L) = frame c3_state) :=
  ⟨by decide, by decide,
    paused_update_applies_input c3_state 1 PlayerInput.L demo_o_piece
      (by decide) (by decide)⟩

/-- C4, code bug: `clear_lines` is a print-only stub, so after a Locking
tick whose commit reports rows 0 and 1 filled, the grid still holds those
rows' cells and row 0's score still equals the width — nothing is removed,
shifted, or recomputed (spec section 9 records the stub as incomplete). -/
theorem commit_leaves_filled_rows_in_grid :
    (c4_board.commit_piece c4_piece).2 = some [0, 1] ∧
    (c4_state.update 1 none demo_o_piece).game_state = GameState.Ready ∧
    (c4_state.update 1 none demo_o_piece).board.is_cell_filled ⟨0, 0⟩ =
      true ∧
    (c4_state.update 1 none demo_o_piece).board.row_score_get 0 = some 2 ∧
    (∀ (t : BoardInstance) (rows : List Int), t.clear_lines rows = t) :=
  ⟨by decide, by decide, by decide, by decide, fun _ _ => rfl⟩

/-- C5, counterexample: on a 2x2 board with (0,0) filled, a piece whose
cells are [(0,0),(0,-1)] placed at (0,0) has its second cell out of bounds,
yet `try_place` returns `PlaceBad` (Blocked), because the per-cell loop
reports the first cell's occupancy before ever bounds-checking the second
cell — so Blocked is not reserved for the all-cells-in-bounds case. -/
theorem blocked_masks_out_of_bounds :
    c5_piece.cells = [(0, 0), (0, -1)] ∧
    c5_board.idx (0 + 0) (0 + (-1)) = none ∧
    c5_board.try_place c5_piece ⟨0, 0⟩ = PlaceResult.PlaceBad ∧
    PlaceResult.PlaceBad ≠ PlaceResult.OutOfBounds := by
  decide

/-- C5, amended: `try_place` checks bounds before occupancy cell by cell, in
catalog order: its result is decided by the first cell that is out of bounds
or occupied — `OutOfBounds` if that cell is out of bounds, `PlaceBad` if it
is in bounds and filled — and `PlaceOk` iff no cell is out of bounds or
occupied. -/
theorem try_place_first_offender (b : Board) (p : PieceInstance)
    (pos : BoardPosition) :
    b.try_place p pos =
      place_result_spec b
        (p.cells.map (fun d => ⟨pos.x + d.1, pos.y + d.2⟩)) :=
  try_place_cells_eq_spec b pos p.cells

/-- C6: committing a piece after a successful placement check at its stored
position marks every absolute cell filled, adds one to `row_score` for each
cell in that row, accumulates `col_score` of each touched column as
max(current, y+1) over the piece's cells, and returns exactly the rows whose
row score reaches exactly the width, each exactly once (the empty list when
none does); every returned row index is in range. -/
theorem commit_piece_spec (b : Board) (p : PieceInstance) (hwf : b.WF)
    (hok : b.try_place p p.position = PlaceResult.PlaceOk) :
    (∀ c ∈ p.cells_abs, (b.commit_piece p).1.is_cell_filled c = true) ∧
    (∀ k : Nat, (b.commit_piece p).1.row_score.getD k 0 =
      b.row_score.getD k 0 +
        (p.cells_abs.countP (fun c => c.y = (k : Int)) : Int)) ∧
    (∀ k : Nat, (b.commit_piece p).1.col_score.getD k 0 =
      p.cells_abs.foldl
        (fun acc c => if c.x = (k : Int) then max acc (c.y + 1) else acc)
        (b.col_score.getD k 0)) ∧
    (∀ y ∈ (b.commit_piece p).2.getD [], 0 ≤ y ∧ y < b.height) ∧
    (∀ y : Int, 0 ≤ y →
      ((b.commit_piece p).2.getD []).count y =
        if b.row_score.getD y.toNat 0 < b.width ∧
            b.width ≤ b.row_score.getD y.toNat 0 +
              (p.cells_abs.countP (fun c => c.y = y) : Int)
        then 1 else 0) := by
  have hin : ∀ d ∈ p.cells,
      (b.idx (p.position.x + d.1) (p.position.y + d.2)).isSome = true := by
    intro d hd
    exact (try_place_cells_ok b p.position p.cells hok d hd).1
  obtain ⟨hw, hh, hwf2, hmono, hcells, hrow, hcol, hbnd, hcnt⟩ :=
    commit_cells_spec p.cells b p.position hwf hin
  have h1 : (b.commit_piece p).1 = (b.commit_cells p.position p.cells).1 :=
    rfl
  have h2 : (b.commit_piece p).2.getD [] =
      (b.commit_cells p.position p.cells).2 := by
    show (if (b.commit_cells p.position p.cells).2.isEmpty then none
      else some (b.commit_cells p.position p.cells).2).getD [] = _
    cases (b.commit_cells p.position p.cells).2 <;> rfl
  refine ⟨?_, ?_, ?_, ?_, ?_⟩
  · intro c hc
    rw [h1]
    obtain ⟨d, hd, rfl⟩ := List.mem_map.mp hc
    exact hcells d hd
  · intro k
    rw [h1, hrow k]
    congr 1
    unfold PieceInstance.cells_abs
    rw [List.countP_map]
    rfl
  · intro k
    rw [h1, hcol k]
    unfold PieceInstance.cells_abs
    rw [List.foldl_map]
  · intro y hy
    rw [h2] at hy
    exact hbnd y hy
  · intro y hy
    have hcp : (p.cells_abs.countP (fun c => c.y = y)) =
        p.cells.countP (fun d => p.position.y + d.2 = y) := by
      unfold PieceInstance.cells_abs
      rw [List.countP_map]
      rfl
    rw [h2, hcnt y hy, hcp]

/-- C6, witness: committing the O piece on an empty 2-wide board completes
rows 0 and 1, and the row-count characterization holds there. -/
theorem commit_piece_spec_witness :
    c4_board.WF ∧
    c4_board.try_place c4_piece c4_piece.position = PlaceResult.PlaceOk ∧
    (∀ y : Int, 0 ≤ y →
      ((c4_board.commit_piece c4_piece).2.getD []).count y =
        if c4_board.row_score.getD y.toNat 0 < c4_board.width ∧
            c4_board.width ≤ c4_board.row_score.getD y.toNat 0 +
              (c4_piece.cells_abs.countP (fun c => c.y = y) : Int)
        then 1 else 0) :=
  ⟨by decide, by decide,
    (commit_piece_spec c4_board c4_piece (by decide) (by decide)).2.2.2.2⟩

/-- C7: entering Paused then immediately leaving it restores the phase and
both timers exactly; and leaving Paused with no remembered phase restores
the phase to Ready. -/
theorem pause_round_trip (s : BoardInstance) :
    (s.game_state ≠ GameState.Paused →
      s.handle_pause.handle_pause.game_state = s.game_state ∧
      s.handle_pause.handle_pause.gravity_timer = s.gravity_timer ∧
      s.handle_pause.handle_pause.lock_timer = s.lock_timer) ∧
    (s.game_state = GameState.Paused → s.prev_game_state = none →
      s.handle_pause.game_state = GameState.Ready) := by
  constructor
  · intro hne
    unfold BoardInstance.handle_pause
    rw [if_neg hne]
    simp
  · intro h1 h2
    unfold BoardInstance.handle_pause
    rw [if_pos h1]
    cases hps : s.pause_state <;> simp [h2]

/-- C7, witness: the round trip at a concrete Locking state and the
default-to-Ready exit at a concrete Paused state with nothing remembered. -/
theorem pause_round_trip_witness :
    (c2_state.game_state ≠ GameState.Paused ∧
      (c2_state.handle_pause.handle_pause.game_state = c2_state.game_state ∧
        c2_state.handle_pause.handle_pause.gravity_timer =
          c2_state.gravity_timer ∧
        c2_state.handle_pause.handle_pause.lock_timer =
          c2_state.lock_timer)) ∧
    (({ c3_state with prev_game_state := none } :
        BoardInstance).handle_pause.game_state = GameState.Ready) :=
  ⟨⟨by decide, (pause_round_trip c2_state).1 (by decide)⟩,
    (pause_round_trip { c3_state with prev_game_state := none }).2
      (by decide) (by decide)⟩

/-- C8: if rotating the active piece at its current position would overlap
filled cells (`PlaceBad`) or leave the grid (`OutOfBounds`), then
`rotate_active_piece` leaves the whole instance unchanged: the piece keeps
its rotation index and position, and nothing else changes. -/
theorem rotate_revert_keeps_state (s : BoardInstance) (piece : PieceInstance)
    (hap : s.active_piece = some piece)
    (hfail : s.board.try_place (piece.rotate RotationDirection.Cw)
        (piece.rotate RotationDirection.Cw).position =
          PlaceResult.PlaceBad ∨
      s.board.try_place (piece.rotate RotationDirection.Cw)
        (piece.rotate RotationDirection.Cw).position =
          PlaceResult.OutOfBounds) :
    s.rotate_active_piece = s := by
  have hne : ¬ s.board.try_place (piece.rotate RotationDirection.Cw)
      (piece.rotate RotationDirection.Cw).position = PlaceResult.PlaceOk := by
    rcases hfail with h | h <;> rw [h] <;>
      exact fun hc => PlaceResult.noConfusion hc
  unfold BoardInstance.rotate_active_piece
  rw [hap]
  dsimp
  rw [if_neg hne]
  have hpiece : ({ piece.rotate RotationDirection.Cw with
      rot_idx := piece.rot_idx } : PieceInstance) = piece := rfl
  rw [hpiece, ← hap]

/-- C8, witness: a piece whose clockwise rotation lands at x = 5 on a 2-wide
board is out of bounds, and the rotation attempt leaves the state intact. -/
theorem rotate_revert_keeps_state_witness :
    c8_state.active_piece = some ⟨c8_typ, demo_color, 0, ⟨0, 0⟩⟩ ∧
    c8_state.board.try_place
        ((⟨c8_typ, demo_color, 0, ⟨0, 0⟩⟩ : PieceInstance).rotate
          RotationDirection.Cw)
        ((⟨c8_typ, demo_color, 0, ⟨0, 0⟩⟩ : PieceInstance).rotate
          RotationDirection.Cw).position = PlaceResult.OutOfBounds ∧
    c8_state.rotate_active_piece = c8_state :=
  ⟨rfl, by decide,
    rotate_revert_keeps_state c8_state ⟨c8_typ, demo_color, 0, ⟨0, 0⟩⟩ rfl
      (Or.inr (by decide))⟩

/-- C9: in every state reachable from construction by any sequence of
update ticks (any dt, any input, any rng-chosen spawn type), the active
piece is present iff the phase is Falling or Locking, or Paused with the
saved pre-pause phase in that set. -/
theorem active_piece_iff_phase (s : BoardInstance) (hr : Reachable s) :
    Inv s := by
  induction hr with
  | init width height color gravity_interval lock_delay =>
    unfold Inv BoardInstance.new
    simp
  | step t dt input new_typ hrt ih => exact inv_update t dt input new_typ ih

/-- C9, witness: the invariant, via the theorem, at a freshly constructed
instance after one tick (which spawns a piece and enters Falling). -/
theorem active_piece_iff_phase_witness :
    Inv ((BoardInstance.new 4 6 demo_color 1 1).update 1 none
      demo_o_piece) :=
  active_piece_iff_phase _
    (Reachable.step _ 1 none demo_o_piece
      (Reachable.init 4 6 demo_color 1 1))

/-- C10: the result of `try_place` depends only on the piece's shape
(variant and rotation index), the candidate position, and the grid: two
piece instances with the same `typ` and `rot_idx` but arbitrary stored
positions and colors always produce the same result. -/
theorem try_place_ignores_stored_position (b : Board)
    (p q : PieceInstance) (pos : BoardPosition) (htyp : p.typ = q.typ)
    (hrot : p.rot_idx = q.rot_idx) :
    b.try_place p pos = b.try_place q pos := by
  unfold Board.try_place PieceInstance.cells
  rw [htyp, hrot]

/-- C10, witness: two O-piece instances with different stored positions and
colors get the same placement verdict at the same candidate position. -/
theorem try_place_ignores_stored_position_witness :
    (⟨demo_o_piece, demo_color, 0, ⟨0, 0⟩⟩ : PieceInstance).typ =
      (⟨demo_o_piece, ⟨1, 1, 1, 1⟩, 0, ⟨7, 9⟩⟩ : PieceInstance).typ ∧
    (⟨demo_o_piece, demo_color, 0, ⟨0, 0⟩⟩ : PieceInstance).rot_idx =
      (⟨demo_o_piece, ⟨1, 1, 1, 1⟩, 0, ⟨7, 9⟩⟩ : PieceInstance).rot_idx ∧
    (⟨demo_o_piece, demo_color, 0, ⟨0, 0⟩⟩ : PieceInstance).position ≠
      (⟨demo_o_piece, ⟨1, 1, 1, 1⟩, 0, ⟨7, 9⟩⟩ : PieceInstance).position ∧
    (Board.new 4 4).try_place ⟨demo_o_piece, demo_color, 0, ⟨0, 0⟩⟩ ⟨1, 1⟩ =
      (Board.new 4 4).try_place ⟨demo_o_piece, ⟨1, 1, 1, 1⟩, 0, ⟨7, 9⟩⟩
        ⟨1, 1⟩ :=
  ⟨rfl, rfl, by decide,
    try_place_ignores_stored_position (Board.new 4 4) _ _ ⟨1, 1⟩ rfl rfl⟩

end ConcreteEvaluation

end TacitGameover
